import Mathlib

/-!
Verification of the pycave EM core (`src/pycave/bayes/output.py`,
`src/pycave/bayes/markov_chain/estimator.py`) against its natural-language
specification.

Tensors of floating-point numbers are modelled as rational-valued arrays
(shape data plus an entry function); exact rational arithmetic stands in for
IEEE floats, which is what the spec's "within floating tolerance" phrasing
allows.  A float division by zero, which produces NaN or an infinity in
torch, has no rational counterpart (Lean's `x / 0 = 0`); every place where
that matters is called out explicitly.

Methods that mutate `self` in the source are embedded as functions returning
the new head state; methods that mutate their arguments (the in-place
`+=` in `Discrete.update`) return the post-call state of the mutated
argument alongside the returned value.
-/

namespace PyCave

/-- A 2-D tensor of rationals: shape `(rows, cols)` plus an entry function.
Entries outside the shape are irrelevant junk. -/
@[ext]
structure Mat where
  rows : ℕ
  cols : ℕ
  entry : ℕ → ℕ → ℚ

/-- A 1-D tensor of rationals. -/
@[ext]
structure Vec where
  len : ℕ
  entry : ℕ → ℚ

/-- An n-dimensional tensor of rationals, indexed by an index list.  Used for
the Gaussian covariance parameter, whose rank depends on the covariance
mode. -/
@[ext]
structure NdQ where
  dims : List ℕ
  entry : List ℕ → ℚ

/-! ## Discrete output head (`src/pycave/bayes/output.py`, class `Discrete`) -/

/-- `Discrete` holds a `num_states × num_outputs` probability table
(`self.probabilities`). -/
@[ext]
structure Discrete where
  probabilities : Mat

def Discrete.num_states (h : Discrete) : ℕ := h.probabilities.rows

def Discrete.num_outputs (h : Discrete) : ℕ := h.probabilities.cols

/-- The local-statistics record returned by `Discrete.maximize`: the dict
`{'num': ..., 'denom': ...}` with `num : K × V` and `denom : K`. -/
@[ext]
structure DStats where
  num : Mat
  denom : Vec

/-- Record shapes match (needed for the in-place `+=` in `update` to be the
shape-preserving elementwise sum). -/
def DStats.sameShape (a b : DStats) : Prop :=
  a.num.rows = b.num.rows ∧ a.num.cols = b.num.cols ∧ a.denom.len = b.denom.len

instance (a b : DStats) : Decidable (a.sameShape b) :=
  inferInstanceAs (Decidable (a.num.rows = b.num.rows ∧ a.num.cols = b.num.cols ∧
    a.denom.len = b.denom.len))

/-- One step of `num.scatter_add_(1, sequences_, gamma_)`: position `n` with
symbol `v = sequences[n]` adds `gamma[n][k]` into `num[k][v]` for every row
`k` (the index row `sequences_` is `sequences` expanded to all `K` rows). -/
def scatterAddStep (acc : ℕ → ℕ → ℚ) (v : ℕ) (g : ℕ → ℚ) : ℕ → ℕ → ℚ :=
  fun k w => if w = v then acc k w + g k else acc k w

/-- `Discrete.maximize(sequences, gamma)`: scatter-adds the responsibilities
into a zero matrix of the shape of `self.probabilities` and sums `gamma`
over the data axis.  The first component is the head after the call (the
source assigns nothing to `self`). -/
def Discrete.maximize (h : Discrete) (sequences : ℕ → ℕ) (N : ℕ)
    (gamma : ℕ → ℕ → ℚ) : Discrete × DStats :=
  (h,
   { num := ⟨h.num_states, h.num_outputs,
       (List.range N).foldl
         (fun acc n => scatterAddStep acc (sequences n) (gamma n))
         (fun _ _ => 0)⟩
     denom := ⟨h.num_states, fun k => ∑ n ∈ Finset.range N, gamma n k⟩ })

/-- `Discrete.update(current, previous)`.  With `previous = None` the record
is returned as is.  Otherwise `num += previous['num']` and
`denom += previous['denom']` mutate `current`'s tensors in place and the
returned dict aliases those same tensors: the first component is the
post-call state of the `current` argument, the second the returned record. -/
def Discrete.update (current : DStats) (previous : Option DStats) :
    DStats × DStats :=
  match previous with
  | none => (current, current)
  | some p =>
    let merged : DStats :=
      { num := ⟨current.num.rows, current.num.cols,
          fun i j => current.num.entry i j + p.num.entry i j⟩
        denom := ⟨current.denom.len,
          fun k => current.denom.entry k + p.denom.entry k⟩ }
    (merged, merged)

/-- torch broadcasting semantics of `num / denom` for a 2-D numerator and a
1-D denominator: the denominator is aligned with the numerator's *last*
(column) axis.  The division is a shape error (`none`) unless the column
count equals the denominator length or one of the two is 1.  Entry-level
division by a zero denominator is NaN or ±inf in torch; the rational model
maps it to 0. -/
def broadcastDiv (num : Mat) (denom : Vec) : Option Mat :=
  if num.cols = denom.len then
    some ⟨num.rows, num.cols, fun i j => num.entry i j / denom.entry j⟩
  else if denom.len = 1 then
    some ⟨num.rows, num.cols, fun i j => num.entry i j / denom.entry 0⟩
  else if num.cols = 1 then
    some ⟨num.rows, denom.len, fun i j => num.entry i 0 / denom.entry j⟩
  else
    none

/-- `Discrete.apply(update)`: `self.probabilities.set_(num / denom)` replaces
the parameter tensor with the broadcast division of the statistics. -/
def Discrete.apply (h : Discrete) (u : DStats) : Option Discrete :=
  (broadcastDiv u.num u.denom).map fun M => ⟨M⟩

/-- Modelled from the spec: `utils.normalize` is not under `src/`.  The spec
describes it as normalization over the last (state) axis guarding all-zero
rows; the guard's fallback value is left unspecified, modelled as leaving
the row unscaled. -/
def normalize (M : Mat) : Mat :=
  ⟨M.rows, M.cols, fun i j =>
    if (∑ c ∈ Finset.range M.cols, M.entry i c) = 0 then M.entry i j
    else M.entry i j / ∑ c ∈ Finset.range M.cols, M.entry i c⟩

/-- `Discrete.evaluate(data)`: `normalize(self.probabilities.t()[data])` —
row `n` of the lookup is the vector `(probabilities[k][data[n]])_k`, then
the rows are normalized.  The source assigns nothing to `self`, so the first
component is the unchanged head. -/
def Discrete.evaluate (h : Discrete) (data : ℕ → ℕ) (N : ℕ) :
    Discrete × Mat :=
  (h, normalize ⟨N, h.num_states, fun n k => h.probabilities.entry k (data n)⟩)

/-! ## Gaussian output head (`src/pycave/bayes/output.py`, class `Gaussian`) -/

/-- `Gaussian` holds the covariance-mode string, the `K × D` means and the
covariance tensor whose rank depends on the mode. -/
@[ext]
structure Gaussian where
  covariance : String
  means : Mat
  covars : NdQ

def Gaussian.num_components (h : Gaussian) : ℕ := h.means.rows

def Gaussian.num_features (h : Gaussian) : ℕ := h.means.cols

/-- `Gaussian.__init__(num_components, num_features, covariance)` followed by
the `reset_parameters()` call it makes with no data: the covars tensor is
allocated as `(K, D)` for `'diag'`, `(K,)` for `'spherical'` and `(D,)` for
every other string (the `else` branch catches `'full'`, `'diag-shared'` and
any invalid name alike), then filled with 1; the means are drawn from a
standard normal — the draw is the `meansInit` argument. -/
def Gaussian.init (num_components num_features : ℕ) (covariance : String)
    (meansInit : ℕ → ℕ → ℚ) : Gaussian :=
  { covariance := covariance
    means := ⟨num_components, num_features, meansInit⟩
    covars :=
      if covariance = "diag" then
        ⟨[num_components, num_features], fun _ => 1⟩
      else if covariance = "spherical" then
        ⟨[num_components], fun _ => 1⟩
      else
        ⟨[num_features], fun _ => 1⟩ }

/-- The statistics record returned by `Gaussian.maximize`: the dict
`{'means': ..., 'covars': ...}`. -/
@[ext]
structure GStats where
  means : Mat
  covars : NdQ

/-- Modelled from the spec: `utils.max_likeli_means` is not under `src/`.
The spec describes it as the responsibility-weighted maximum-likelihood
mean: `means[k][d] = (Σ_n gamma[n][k] · data[n][d]) / denom[k]`. -/
def max_likeli_means (data : ℕ → ℕ → ℚ) (N : ℕ) (gamma : ℕ → ℕ → ℚ)
    (denom : ℕ → ℚ) (K D : ℕ) : Mat :=
  ⟨K, D, fun k d => (∑ n ∈ Finset.range N, gamma n k * data n d) / denom k⟩

/-- Modelled from the spec: `utils.max_likeli_covars` is not under `src/`.
The spec describes it via the responsibility-weighted scatter of deviations
with the structure-specific reduction: full keeps the `D × D` scatter per
component, diagonal keeps only its diagonal, spherical further averages
across dimensions, and the shared mode pools the scatter across all
components before dividing by the total responsibility (also used as the
fallback for unrecognized mode strings, mirroring the `else` branches of
the source). -/
def max_likeli_covars (data : ℕ → ℕ → ℚ) (N : ℕ) (gamma : ℕ → ℕ → ℚ)
    (denom : ℕ → ℚ) (means : Mat) (covariance : String) : NdQ :=
  let K := means.rows
  let D := means.cols
  let scatter : ℕ → ℕ → ℕ → ℚ := fun k d e =>
    ∑ n ∈ Finset.range N,
      gamma n k * (data n d - means.entry k d) * (data n e - means.entry k e)
  if covariance = "full" then
    ⟨[K, D, D], fun ix =>
      scatter (ix.getD 0 0) (ix.getD 1 0) (ix.getD 2 0) / denom (ix.getD 0 0)⟩
  else if covariance = "diag" then
    ⟨[K, D], fun ix =>
      scatter (ix.getD 0 0) (ix.getD 1 0) (ix.getD 1 0) / denom (ix.getD 0 0)⟩
  else if covariance = "spherical" then
    ⟨[K], fun ix =>
      (∑ d ∈ Finset.range D, scatter (ix.getD 0 0) d d) /
        ((D : ℚ) * denom (ix.getD 0 0))⟩
  else
    ⟨[D], fun ix =>
      (∑ k ∈ Finset.range K, scatter k (ix.getD 0 0) (ix.getD 0 0)) /
        ∑ k ∈ Finset.range K, denom k⟩

/-- `Gaussian.maximize(sequences, gamma)`: computes `denom = gamma.sum(0)`
and the maximum-likelihood means and covars (the two helpers live in the
missing `utils` module and are modelled from the spec above).  The source
assigns nothing to `self`, so the first component is the unchanged head. -/
def Gaussian.maximize (h : Gaussian) (data : ℕ → ℕ → ℚ) (N : ℕ)
    (gamma : ℕ → ℕ → ℚ) : Gaussian × GStats :=
  let denom : ℕ → ℚ := fun k => ∑ n ∈ Finset.range N, gamma n k
  let means := max_likeli_means data N gamma denom h.means.rows h.means.cols
  (h, ⟨means, max_likeli_covars data N gamma denom means h.covariance⟩)

/-- `Gaussian.update(current, previous)`: the body is `pass` — nothing is
merged, nothing is mutated, and the method returns `None`.  The first
component is the (unchanged) `current` argument after the call, the second
the returned value. -/
def Gaussian.update (current : GStats) (previous : Option GStats) :
    GStats × Option GStats :=
  (current, none)

/-- `Gaussian.apply(update)`: the body is `pass` — no parameter of the head
is written. -/
def Gaussian.apply (h : Gaussian) (u : GStats) : Gaussian :=
  h

/-- `Gaussian._get_full_covariance_matrix(i)`: `torch.diag(self.covars[i])`
for `'diag'`, `torch.diag(self.covars)` for `'diag-shared'`, and otherwise
`self.covars[i] * torch.diag(torch.ones(num_features))`. -/
def Gaussian._get_full_covariance_matrix (h : Gaussian) (i : ℕ) : Mat :=
  let D := h.means.cols
  if h.covariance = "diag" then
    ⟨D, D, fun a b => if a = b then h.covars.entry [i, a] else 0⟩
  else if h.covariance = "diag-shared" then
    ⟨D, D, fun a b => if a = b then h.covars.entry [a] else 0⟩
  else
    ⟨D, D, fun a b => h.covars.entry [i] * (if a = b then 1 else 0)⟩

/-- A diagonal matrix with the vector `v` on the diagonal (the spec's
"diagonal entries broadcast onto a diagonal matrix"). -/
def diagMat (D : ℕ) (v : ℕ → ℚ) : Mat :=
  ⟨D, D, fun a b => if a = b then v a else 0⟩

/-- A scalar broadcast onto the `D × D` identity (the spec's "spherical
broadcasts a scalar onto the identity"). -/
def scalarIdMat (D : ℕ) (c : ℚ) : Mat :=
  ⟨D, D, fun a b => c * (if a = b then 1 else 0)⟩

/-- Small positive floor added to covariance diagonals during evaluation.
The spec requires "a small numerical floor"; its magnitude is unspecified
and modelled as `1e-6`. -/
def numericalFloor : ℚ := 1 / 1000000

/-- Modelled from the spec: `utils.log_normal` is not under `src/`.  The
spec describes it as the log multivariate normal density per component with
the covariance-structure-specific quadratic form and log-determinant, with
a numerical floor added to the covariance diagonals.  For modes other than
`'diag'` and `'diag-shared'` the stored covariance entry of the component is
used as a spherical variance, mirroring `_get_full_covariance_matrix`'s
fallback. -/
noncomputable def log_normal (data : ℕ → ℕ → ℚ) (means : Mat) (covars : NdQ)
    (covariance : String) : ℕ → ℕ → ℝ :=
  let D := means.cols
  let var : ℕ → ℕ → ℚ := fun k d =>
    if covariance = "diag" then covars.entry [k, d] + numericalFloor
    else if covariance = "diag-shared" then covars.entry [d] + numericalFloor
    else covars.entry [k] + numericalFloor
  fun n k =>
    -((D : ℝ) / 2) * Real.log (2 * Real.pi) -
      (1 / 2) * (∑ d ∈ Finset.range D, Real.log ((var k d : ℚ) : ℝ)) -
      (1 / 2) * ∑ d ∈ Finset.range D,
        (((data n d - means.entry k d) ^ 2 / var k d : ℚ) : ℝ)

/-- `Gaussian.evaluate(data, log=False)`: evaluates `log_normal` on the
committed parameters and exponentiates unless log-space output is
requested.  The source assigns nothing to `self`, so the first component is
the unchanged head. -/
noncomputable def Gaussian.evaluate (h : Gaussian) (data : ℕ → ℕ → ℚ)
    (N : ℕ) (log : Bool) : Gaussian × (ℕ → ℕ → ℝ) :=
  (h, fun n k =>
    if log then log_normal data h.means h.covars h.covariance n k
    else Real.exp (log_normal data h.means h.covars h.covariance n k))

/-! ## Markov chain estimator (`src/pycave/bayes/markov_chain/estimator.py`) -/

/-- The `SequenceData` accepted by `_get_num_states`: a NumPy `int64` array,
a PyTorch `long` tensor (either modelled by its list of integer elements —
`max()` reduces over all of them regardless of shape), or a dataset whose
entries are again sequence data. -/
inductive SequenceData where
  | array (elems : List ℤ)
  | tensor (elems : List ℤ)
  | dataset (entries : List SequenceData)

/-- `max` over two optional values, strict in failures: Python's `max()`
over a generator propagates any exception raised while producing an
entry. -/
def optMax (a b : Option ℤ) : Option ℤ :=
  match a, b with
  | some x, some y => some (max x y)
  | _, _ => none

/-- `_get_num_states(data)`: `int(data.max() + 1)` for an array or tensor
(`none` models the exception `max` raises on empty data, and the `dtype`
asserts are modelled by the element type `ℤ`), and
`max(_get_num_states(entry) for entry in data)` for a dataset. -/
def _get_num_states : SequenceData → Option ℤ
  | .array l => l.max?.map (fun m => m + 1)
  | .tensor l => l.max?.map (fun m => m + 1)
  | .dataset [] => none
  | .dataset [e] => _get_num_states e
  | .dataset (e :: f :: rest) =>
      optMax (_get_num_states e) (_get_num_states (.dataset (f :: rest)))

/-- The number of states `MarkovChain.fit` configures the model with:
`self.num_states or _get_num_states(sequences)` — Python's `or` falls
through to the inference both when `num_states` is `None` and when it is
the falsy `0`. -/
def MarkovChain.fitNumStates (numStates : Option ℤ) (s : SequenceData) :
    Option ℤ :=
  match numStates with
  | some k => if k = 0 then _get_num_states s else some k
  | none => _get_num_states s

/-! ## Concrete inputs used in the claim-level evaluations below -/

/-- A 2-state, 2-symbol discrete head whose committed table is uniform. -/
def headC2 : Discrete := ⟨⟨2, 2, fun _ _ => 1 / 2⟩⟩

/-- The batch `data = [0, 1]`. -/
def dataC2 : ℕ → ℕ := fun n => if n = 0 then 0 else 1

/-- The responsibilities `gamma = [[1, 1], [1, 3]]`. -/
def gammaC2 : ℕ → ℕ → ℚ := fun n k => if n = 0 then 1 else if k = 0 then 1 else 3

/-- The statistics record obtained by folding the single `maximize` output
with `update` (with `previous = None`). -/
def mergedC2 : DStats :=
  (Discrete.update (Discrete.maximize headC2 dataC2 2 gammaC2).2 none).2

/-- A 2-state, 2-symbol discrete head whose committed table is uniform. -/
def headC3 : Discrete := ⟨⟨2, 2, fun _ _ => 1 / 2⟩⟩

/-- Responsibilities `gamma = [[1, 0], [1, 0]]`: state 1 never receives any
responsibility. -/
def gammaC3 : ℕ → ℕ → ℚ := fun _ k => if k = 0 then 1 else 0

/-- The statistics for the batch `data = [0, 0]` with `gammaC3`, folded with
`update`: `num = [[2, 0], [0, 0]]`, `denom = [2, 0]`. -/
def mergedC3 : DStats :=
  (Discrete.update (Discrete.maximize headC3 (fun _ => 0) 2 gammaC3).2 none).2

/-- Concrete same-shape statistics records for the merge laws. -/
def aC4 : DStats := ⟨⟨1, 2, fun _ j => (j : ℚ) + 1⟩, ⟨1, fun _ => 3⟩⟩

def bC4 : DStats := ⟨⟨1, 2, fun _ _ => 5⟩, ⟨1, fun _ => 7⟩⟩

def cC4 : DStats := ⟨⟨1, 2, fun _ _ => 2⟩, ⟨1, fun _ => 1⟩⟩

/-- A 2-state, 2-symbol discrete head for the `maximize` evaluation. -/
def headC5 : Discrete := ⟨⟨2, 2, fun _ _ => 1 / 2⟩⟩

/-- The batch `data = [0, 1]`. -/
def seqC5 : ℕ → ℕ := fun n => n

/-- The responsibilities `gamma = [[1/4, 3/4], [1/2, 1/2]]`. -/
def gammaC5 : ℕ → ℕ → ℚ :=
  fun n k => if n = 0 then (if k = 0 then 1 / 4 else 3 / 4) else 1 / 2

/-- A concrete discrete head for the evaluation-purity witness. -/
def headC9 : Discrete := ⟨⟨2, 2, fun _ _ => 1 / 2⟩⟩

/-- A concrete Gaussian head for the evaluation-purity witness. -/
def gheadC9 : Gaussian := Gaussian.init 2 3 "diag" fun _ _ => 0

/-! ## Theorems -/

/-- The scatter-add loop of `Discrete.maximize` computes, at entry `(k, v)`,
the sum of `gamma[n][k]` over the positions `n` with `sequences[n] = v`. -/
theorem scatter_foldl_entry (sequences : ℕ → ℕ) (gamma : ℕ → ℕ → ℚ)
    (N k v : ℕ) :
    ((List.range N).foldl
        (fun acc n => scatterAddStep acc (sequences n) (gamma n))
        (fun _ _ => 0)) k v
      = ∑ n ∈ Finset.range N, if sequences n = v then gamma n k else 0 := by
  induction N with
  | zero => simp
  | succ m ih =>
    rw [List.range_succ, List.foldl_append, Finset.sum_range_succ, ← ih]
    simp only [List.foldl_cons, List.foldl_nil, scatterAddStep]
    by_cases hv : v = sequences m
    · simp [hv]
    · have hv' : ¬sequences m = v := fun hh => hv hh.symm
      simp [hv, hv']

/-- C5: `Discrete.maximize` leaves the head unchanged and returns the
responsibility-weighted co-occurrence counts as `num` and the per-state
total responsibility as `denom`. -/
theorem C5_discrete_maximize_statistics (h : Discrete) (sequences : ℕ → ℕ)
    (N : ℕ) (gamma : ℕ → ℕ → ℚ)
    (hrange : ∀ n < N, sequences n < h.num_outputs) :
    (Discrete.maximize h sequences N gamma).1 = h ∧
    (∀ k v, (Discrete.maximize h sequences N gamma).2.num.entry k v
        = ∑ n ∈ Finset.range N, if sequences n = v then gamma n k else 0) ∧
    (∀ k, (Discrete.maximize h sequences N gamma).2.denom.entry k
        = ∑ n ∈ Finset.range N, gamma n k) :=
  ⟨rfl, fun k v => scatter_foldl_entry sequences gamma N k v, fun _ => rfl⟩

/-- Witness for C5 at a concrete head and batch. -/
theorem C5_witness :
    (Discrete.maximize headC5 seqC5 2 gammaC5).1 = headC5 ∧
    ((Discrete.maximize headC5 seqC5 2 gammaC5).2.num.entry 0 1
      = ∑ n ∈ Finset.range 2, if seqC5 n = 1 then gammaC5 n 0 else 0) ∧
    (Discrete.maximize headC5 seqC5 2 gammaC5).2.denom.entry 0
      = ∑ n ∈ Finset.range 2, gammaC5 n 0 :=
  ⟨(C5_discrete_maximize_statistics headC5 seqC5 2 gammaC5 (by decide)).1,
   (C5_discrete_maximize_statistics headC5 seqC5 2 gammaC5 (by decide)).2.1 0 1,
   (C5_discrete_maximize_statistics headC5 seqC5 2 gammaC5 (by decide)).2.2 0⟩

/-- C4: `Discrete.update` is a merge with `None` as identity, and merging is
commutative and associative on same-shape records (exact elementwise sums in
the rational model). -/
theorem C4_discrete_update_merge_laws (a b c : DStats)
    (hab : a.sameShape b) (hac : a.sameShape c) :
    (Discrete.update a none).2 = a ∧
    (Discrete.update (Discrete.update a (some b)).2 (some c)).2
      = (Discrete.update (Discrete.update b (some a)).2 (some c)).2 ∧
    (Discrete.update (Discrete.update a (some b)).2 (some c)).2
      = (Discrete.update a (some (Discrete.update b (some c)).2)).2 := by
  obtain ⟨h1, h2, h3⟩ := hab
  refine ⟨rfl, ?_, ?_⟩
  · ext <;> simp [Discrete.update, h1, h2, h3] <;> ring
  · ext <;> simp [Discrete.update] <;> ring

/-- Witness for C4 at concrete records. -/
theorem C4_witness :
    (Discrete.update (Discrete.update aC4 (some bC4)).2 (some cC4)).2
      = (Discrete.update (Discrete.update bC4 (some aC4)).2 (some cC4)).2 :=
  (C4_discrete_update_merge_laws aC4 bC4 cC4 (by decide) (by decide)).2.1

/-- C10: `Discrete.update` with a non-`None` previous record mutates its
`current` argument in place: after the call the `current` record holds the
elementwise sums (its shape staying that of `current`), and the returned
record is that same mutated record. -/
theorem C10_discrete_update_mutates_current (a b : DStats) :
    (Discrete.update a (some b)).1 = (Discrete.update a (some b)).2 ∧
    (∀ i j, (Discrete.update a (some b)).1.num.entry i j
        = a.num.entry i j + b.num.entry i j) ∧
    (∀ k, (Discrete.update a (some b)).1.denom.entry k
        = a.denom.entry k + b.denom.entry k) ∧
    (Discrete.update a (some b)).1.num.rows = a.num.rows ∧
    (Discrete.update a (some b)).1.num.cols = a.num.cols ∧
    (Discrete.update a (some b)).1.denom.len = a.denom.len :=
  ⟨rfl, fun _ _ => rfl, fun _ => rfl, rfl, rfl, rfl⟩

/-- C1: the Gaussian statistics protocol commits nothing — `apply` leaves
every parameter of the head unchanged for every statistics record (its body
is `pass`), and `update` returns `None` instead of a merged record. -/
theorem C1_gaussian_apply_noop (h : Gaussian) (u : GStats) :
    Gaussian.apply h u = h ∧ ∀ p, (Gaussian.update u p).2 = none :=
  ⟨rfl, fun _ => rfl⟩

/-- C9: `evaluate` neither mutates the committed parameters of a head nor
depends on anything besides them and the input, for the discrete and the
Gaussian head alike. -/
theorem C9_evaluate_pure :
    (∀ (h : Discrete) (data : ℕ → ℕ) (N : ℕ),
        (Discrete.evaluate h data N).1 = h) ∧
    (∀ h₁ h₂ : Discrete, h₁.probabilities = h₂.probabilities →
      ∀ (data : ℕ → ℕ) (N : ℕ),
        (Discrete.evaluate h₁ data N).2 = (Discrete.evaluate h₂ data N).2) ∧
    (∀ (g : Gaussian) (data : ℕ → ℕ → ℚ) (N : ℕ) (log : Bool),
        (Gaussian.evaluate g data N log).1 = g) ∧
    (∀ g₁ g₂ : Gaussian, g₁.means = g₂.means → g₁.covars = g₂.covars →
      g₁.covariance = g₂.covariance →
      ∀ (data : ℕ → ℕ → ℚ) (N : ℕ) (log : Bool),
        (Gaussian.evaluate g₁ data N log).2
          = (Gaussian.evaluate g₂ data N log).2) := by
  refine ⟨fun _ _ _ => rfl, ?_, fun _ _ _ _ => rfl, ?_⟩
  · intro h₁ h₂ hp data N
    cases h₁; cases h₂
    cases hp
    rfl
  · intro g₁ g₂ hm hc hcov data N log
    cases g₁; cases g₂
    cases hm; cases hc; cases hcov
    rfl

/-- Witness for C9 at concrete heads and inputs. -/
theorem C9_witness :
    (Discrete.evaluate headC9 (fun _ => 0) 2).1 = headC9 ∧
    (Discrete.evaluate headC9 (fun _ => 0) 2).2
      = (Discrete.evaluate headC9 (fun _ => 0) 2).2 ∧
    (Gaussian.evaluate gheadC9 (fun _ _ => 1) 2 false).1 = gheadC9 ∧
    (Gaussian.evaluate gheadC9 (fun _ _ => 1) 2 false).2
      = (Gaussian.evaluate gheadC9 (fun _ _ => 1) 2 false).2 :=
  ⟨C9_evaluate_pure.1 headC9 (fun _ => 0) 2,
   C9_evaluate_pure.2.1 headC9 headC9 rfl (fun _ => 0) 2,
   C9_evaluate_pure.2.2.1 gheadC9 (fun _ _ => 1) 2 false,
   C9_evaluate_pure.2.2.2 gheadC9 gheadC9 rfl rfl rfl (fun _ _ => 1) 2 false⟩

/-- C2: evaluation of `Discrete.apply` at a statistics record folded from
`maximize` with `update`, on a 2-state, 2-symbol head.  Both per-state
denominators are strictly positive (2 and 4), yet after `apply` row 0 of
the committed table sums to 3/4: the broadcast in `num / denom` divides the
columns by `denom` (symbol axis) instead of the rows (state axis), so the
claimed row-stochasticity fails (and for `num_outputs ≠ num_states` the
division is a shape error altogether). -/
theorem C2_row_sum_not_one :
    mergedC2.denom.entry 0 = 2 ∧ mergedC2.denom.entry 1 = 4 ∧
    (Discrete.apply headC2 mergedC2).map
        (fun g => ∑ j ∈ Finset.range g.probabilities.cols,
          g.probabilities.entry 0 j)
      = some (3 / 4) ∧
    ¬|(3 : ℚ) / 4 - 1| ≤ 1 / 1000000 := by
  have habs : |(3 : ℚ) / 4 - 1| = 1 / 4 := by
    rw [abs_of_nonpos (by norm_num)]
    norm_num
  refine ⟨?_, ?_, ?_, by rw [habs]; norm_num⟩ <;>
    simp [mergedC2, headC2, dataC2, gammaC2, Discrete.update, Discrete.maximize,
      Discrete.apply, broadcastDiv, scatterAddStep, Discrete.num_states,
      Discrete.num_outputs, List.range_succ, Finset.sum_range_succ] <;>
    norm_num

/-- C3: evaluation of `Discrete.apply` at a statistics record that assigns
zero total responsibility to state 1 (`denom = [2, 0]`).  `apply` divides
unconditionally — there is no zero-denominator guard — so row 1 of the
table is overwritten (entry `(1,0)` becomes `0/2 = 0 ≠ 1/2`) instead of
retaining its previous value; in torch the same division also produces
non-finite `0/0` entries in the column the zero denominator is broadcast
over. -/
theorem C3_zero_denom_row_overwritten :
    mergedC3.denom.entry 1 = 0 ∧
    headC3.probabilities.entry 1 0 = 1 / 2 ∧
    (Discrete.apply headC3 mergedC3).map
        (fun g => g.probabilities.entry 1 0)
      = some 0 := by
  refine ⟨?_, by norm_num [headC3], ?_⟩ <;>
    simp [mergedC3, headC3, gammaC3, Discrete.update, Discrete.maximize,
      Discrete.apply, broadcastDiv, scatterAddStep, Discrete.num_states,
      Discrete.num_outputs, List.range_succ, Finset.sum_range_succ]

/-- C6 counterexample: constructing a Gaussian head with the invalid
covariance name "bogus" does not fail — it produces a fully usable head
(the `else` branch of `__init__` allocates a `(num_features,)` covars
filled with 1, and the covariance-matrix fallback treats it spherically). -/
theorem C6_counterexample :
    (Gaussian.init 2 3 "bogus" fun _ _ => 0).covariance = "bogus" ∧
    (Gaussian.init 2 3 "bogus" fun _ _ => 0).means.rows = 2 ∧
    (Gaussian.init 2 3 "bogus" fun _ _ => 0).means.cols = 3 ∧
    (Gaussian.init 2 3 "bogus" fun _ _ => 0).covars.dims = [3] ∧
    (Gaussian._get_full_covariance_matrix
        (Gaussian.init 2 3 "bogus" fun _ _ => 0) 0).entry 0 0 = 1 := by
  refine ⟨rfl, rfl, rfl, by decide, ?_⟩
  have h1 : ("bogus" : String) ≠ "diag" := by decide
  have h2 : ("bogus" : String) ≠ "spherical" := by decide
  have h3 : ("bogus" : String) ≠ "diag-shared" := by decide
  simp [Gaussian.init, Gaussian._get_full_covariance_matrix, h1, h2, h3]

/-- C6 amended: `Gaussian.__init__` accepts every covariance string; any
name other than "diag" and "spherical" — valid or not — falls into the
`else` branch and constructs a head with a `(num_features,)` covariance, so
no configuration error is surfaced at construction. -/
theorem C6_amended_init_accepts_any_name (K D : ℕ) (name : String)
    (f : ℕ → ℕ → ℚ) (h1 : name ≠ "diag") (h2 : name ≠ "spherical") :
    (Gaussian.init K D name f).covariance = name ∧
    (Gaussian.init K D name f).means.rows = K ∧
    (Gaussian.init K D name f).means.cols = D ∧
    (Gaussian.init K D name f).covars.dims = [D] := by
  refine ⟨rfl, rfl, rfl, ?_⟩
  simp [Gaussian.init, h1, h2]

/-- Witness for the amended C6 at the invalid name "bogus". -/
theorem C6_witness :
    (Gaussian.init 2 3 "bogus" fun _ _ => 0).covariance = "bogus" ∧
    (Gaussian.init 2 3 "bogus" fun _ _ => 0).means.rows = 2 ∧
    (Gaussian.init 2 3 "bogus" fun _ _ => 0).means.cols = 3 ∧
    (Gaussian.init 2 3 "bogus" fun _ _ => 0).covars.dims = [3] :=
  C6_amended_init_accepts_any_name 2 3 "bogus" (fun _ _ => 0)
    (by decide) (by decide)

/-- C7 counterexample: in mode "full" the stored covariance parameter is a
`(num_features,)` vector — not a `D × D` matrix per component (which would
have dimension list `[2, 3, 3]`, or `[3, 3]` if shared). -/
theorem C7_counterexample :
    (Gaussian.init 2 3 "full" fun _ _ => 0).covars.dims = [3] ∧
    (Gaussian.init 2 3 "full" fun _ _ => 0).covars.dims ≠ [2, 3, 3] ∧
    (Gaussian.init 2 3 "full" fun _ _ => 0).covars.dims ≠ [3, 3] := by
  decide

/-- C7 amended: the stored covariance is `K × D` for "diag", length `K` for
"spherical", and a single length-`D` vector for every other mode — "full"
included; the full-covariance reconstruction broadcasts diagonal entries
onto a diagonal matrix for "diag" and "diag-shared", and for every other
mode (spherical and "full" alike) broadcasts the component's stored scalar
entry onto the identity. -/
theorem C7_amended_covariance_shapes (K D : ℕ) (f : ℕ → ℕ → ℚ)
    (name : String) (h1 : name ≠ "diag") (h2 : name ≠ "spherical") :
    (Gaussian.init K D "diag" f).covars.dims = [K, D] ∧
    (Gaussian.init K D "spherical" f).covars.dims = [K] ∧
    (Gaussian.init K D name f).covars.dims = [D] ∧
    (∀ g : Gaussian, g.covariance = "diag" → ∀ i,
        g._get_full_covariance_matrix i
          = diagMat g.means.cols fun a => g.covars.entry [i, a]) ∧
    (∀ g : Gaussian, g.covariance = "diag-shared" → ∀ i,
        g._get_full_covariance_matrix i
          = diagMat g.means.cols fun a => g.covars.entry [a]) ∧
    (∀ g : Gaussian, g.covariance ≠ "diag" → g.covariance ≠ "diag-shared" →
      ∀ i, g._get_full_covariance_matrix i
          = scalarIdMat g.means.cols (g.covars.entry [i])) := by
  refine ⟨by simp [Gaussian.init], by simp [Gaussian.init], ?_, ?_, ?_, ?_⟩
  · simp [Gaussian.init, h1, h2]
  · intro g hg i
    simp [Gaussian._get_full_covariance_matrix, hg, diagMat]
  · intro g hg i
    have hg' : g.covariance ≠ "diag" := by rw [hg]; decide
    simp [Gaussian._get_full_covariance_matrix, hg, hg', diagMat]
  · intro g hg1 hg2 i
    simp [Gaussian._get_full_covariance_matrix, hg1, hg2, scalarIdMat]

/-- Witness for the amended C7 at concrete sizes, including the identity
broadcast for the (supposedly full-covariance) mode "full". -/
theorem C7_witness :
    (Gaussian.init 2 3 "diag" fun _ _ => 0).covars.dims = [2, 3] ∧
    (Gaussian.init 2 3 "spherical" fun _ _ => 0).covars.dims = [2] ∧
    (Gaussian.init 2 3 "full" fun _ _ => 0).covars.dims = [3] ∧
    Gaussian._get_full_covariance_matrix
        (Gaussian.init 2 3 "full" fun _ _ => 0) 0
      = scalarIdMat 3 ((Gaussian.init 2 3 "full" fun _ _ => 0).covars.entry [0]) :=
  ⟨(C7_amended_covariance_shapes 2 3 (fun _ _ => 0) "full"
      (by decide) (by decide)).1,
   (C7_amended_covariance_shapes 2 3 (fun _ _ => 0) "full"
      (by decide) (by decide)).2.1,
   (C7_amended_covariance_shapes 2 3 (fun _ _ => 0) "full"
      (by decide) (by decide)).2.2.1,
   (C7_amended_covariance_shapes 2 3 (fun _ _ => 0) "full"
      (by decide) (by decide)).2.2.2.2.2
     (Gaussian.init 2 3 "full" fun _ _ => 0) (by decide) (by decide) 0⟩

/-- The dataset branch of `_get_num_states` computes the maximum of the
per-entry results: any value it returns is attained by some entry and
bounds the value of every entry. -/
theorem dataset_num_states_is_max (es : List SequenceData) (M : ℤ)
    (h : _get_num_states (.dataset es) = some M) :
    (∃ e ∈ es, _get_num_states e = some M) ∧
      ∀ e ∈ es, ∀ v, _get_num_states e = some v → v ≤ M := by
  induction es generalizing M with
  | nil => simp [_get_num_states] at h
  | cons e rest ih =>
    cases rest with
    | nil =>
      have he : _get_num_states e = some M := by
        rw [← h]; simp [_get_num_states]
      refine ⟨⟨e, by simp, he⟩, ?_⟩
      intro e' he' v hv
      rw [List.mem_singleton] at he'
      subst he'
      rw [he] at hv
      exact le_of_eq (Option.some.inj hv).symm
    | cons f rest' =>
      have hunfold : _get_num_states (.dataset (e :: f :: rest'))
          = optMax (_get_num_states e)
              (_get_num_states (.dataset (f :: rest'))) := by
        simp [_get_num_states]
      rw [hunfold] at h
      cases ha : _get_num_states e with
      | none => rw [ha] at h; simp [optMax] at h
      | some a =>
        cases hb : _get_num_states (.dataset (f :: rest')) with
        | none => rw [ha, hb] at h; simp [optMax] at h
        | some b =>
          rw [ha, hb] at h
          have hM : M = max a b := (Option.some.inj h).symm
          obtain ⟨⟨e₀, he₀, hv₀⟩, hub⟩ := ih b hb
          constructor
          · rcases max_choice a b with hc | hc
            · exact ⟨e, by simp, by rw [ha, hM, hc]⟩
            · exact ⟨e₀, by simp [he₀], by rw [hv₀, hM, hc]⟩
          · intro e' he' v hv
            rw [List.mem_cons] at he'
            rcases he' with he' | he'
            · subst he'
              rw [ha] at hv
              have hav : a = v := Option.some.inj hv
              subst hav
              rw [hM]
              exact le_max_left a b
            · exact le_trans (hub e' he' v hv) (hM ▸ le_max_right a b)

/-- C8: when `num_states` is not supplied (`None`), `fit` configures the
model with `_get_num_states(sequences)`: for a non-empty int64 array or
long tensor this is the maximum element plus 1, and for a non-empty dataset
it is the maximum of the per-entry inferred values (attained by one entry
and bounding them all). -/
theorem C8_fit_infers_num_states (l : List ℤ) (m : ℤ) (hm : l.max? = some m)
    (es : List SequenceData) (M : ℤ)
    (hM : _get_num_states (.dataset es) = some M) :
    m ∈ l ∧ (∀ x ∈ l, x ≤ m) ∧
    MarkovChain.fitNumStates none (.tensor l) = some (m + 1) ∧
    MarkovChain.fitNumStates none (.array l) = some (m + 1) ∧
    MarkovChain.fitNumStates none (.dataset es) = some M ∧
    (∃ e ∈ es, _get_num_states e = some M) ∧
    ∀ e ∈ es, ∀ v, _get_num_states e = some v → v ≤ M := by
  obtain ⟨hmem, hub⟩ := dataset_num_states_is_max es M hM
  refine ⟨List.max?_mem (fun a b => max_choice a b) hm,
          fun x hx => (List.max?_le_iff (fun _ _ _ => max_le_iff) hm).1
            le_rfl x hx,
          ?_, ?_, hM, hmem, hub⟩
  · show _get_num_states (.tensor l) = some (m + 1)
    simp [_get_num_states, hm]
  · show _get_num_states (.array l) = some (m + 1)
    simp [_get_num_states, hm]

/-- Witness for C8: the tensor `[0, 3, 1]` infers `3 + 1` states and the
dataset `[tensor [2], array [0, 5]]` infers `max(3, 6) = 6`. -/
theorem C8_witness :
    (3 : ℤ) ∈ ([0, 3, 1] : List ℤ) ∧
    MarkovChain.fitNumStates none (.tensor [0, 3, 1]) = some (3 + 1) ∧
    MarkovChain.fitNumStates none
        (.dataset [.tensor [2], .array [0, 5]]) = some 6 := by
  have hm : ([0, 3, 1] : List ℤ).max? = some 3 := by decide
  have hM : _get_num_states (.dataset [.tensor [2], .array [0, 5]])
      = some 6 := by
    simp [_get_num_states, optMax]
  exact ⟨(C8_fit_infers_num_states [0, 3, 1] 3 hm _ 6 hM).1,
         (C8_fit_infers_num_states [0, 3, 1] 3 hm _ 6 hM).2.2.1,
         (C8_fit_infers_num_states [0, 3, 1] 3 hm _ 6 hM).2.2.2.2.1⟩

end PyCave
